import Mathlib

/-
  Verification of the HSBI timetable PDF-to-events pipeline
  (src/src/libs/parser.py).

  Strings are modelled as `List Char`; pandas cells are modelled by the
  dynamic value type `PyVal`, where `PyVal.nan` stands for a missing
  value (NaN/NaT/None).  Each Lean definition below is a direct
  translation of the Python function of the same (or clearly indicated)
  name.
-/

namespace HT

/-- Python value, as stored in a pandas cell or produced by `json.loads`. -/
inductive PyVal where
  | nan : PyVal
  | str : List Char → PyVal
  | vint : Int → PyVal
  | vlist : List PyVal → PyVal
  | vdict : List (List Char × PyVal) → PyVal
  | vdate : Nat → Nat → Nat → PyVal
  | vtime : Nat → Nat → PyVal

/-- Python whitespace characters stripped by `str.strip()` (the common
ASCII whitespace plus the no-break space, which Python treats as
whitespace). -/
def isPyWs (c : Char) : Bool :=
  c = ' ' || c = '\t' || c = '\n' || c = '\r' || c = '\x0b' || c = '\x0c' || c = '\xa0'

/-- `s.strip()`: remove leading and trailing whitespace. -/
def stripWS (s : List Char) : List Char :=
  ((s.dropWhile isPyWs).reverse.dropWhile isPyWs).reverse

/-- Numeric value of a digit string. -/
def digitsVal (l : List Char) : Nat :=
  l.foldl (fun a c => a * 10 + (c.toNat - 48)) 0

/-- Single-character replacement, `str.replace` with one-character
pattern and replacement. -/
def replaceChar (c₁ c₂ : Char) (s : List Char) : List Char :=
  s.map (fun c => if c = c₁ then c₂ else c)

/-- Worker for `replaceAll`: `skip` counts pattern characters still to
be consumed after a match, so the recursion is structural on the
string. -/
def replaceAllGo (p r : List Char) : Nat → List Char → List Char
  | _, [] => []
  | 0, c :: cs =>
    if p ≠ [] ∧ p.isPrefixOf (c :: cs) then
      r ++ replaceAllGo p r (p.length - 1) cs
    else
      c :: replaceAllGo p r 0 cs
  | skip + 1, _ :: cs => replaceAllGo p r skip cs

/-- Leftmost non-overlapping replacement of every occurrence of `p` by
`r`, the semantics of Python `str.replace` / `re.sub` with a literal
pattern.  (Python's behaviour on an empty pattern is never exercised by
the source; an empty pattern is treated as "no match" here.) -/
def replaceAll (p r s : List Char) : List Char :=
  replaceAllGo p r 0 s

/-- Does the string start with `" Uhr"`? -/
def uhrAt (s : List Char) : Bool :=
  match s with
  | c₁ :: c₂ :: c₃ :: c₄ :: _ => c₁ = ' ' && c₂ = 'U' && c₃ = 'h' && c₄ = 'r'
  | _ => false

/-- Does `" Uhr"` occur anywhere in the string? -/
def hasUhr : List Char → Bool
  | [] => false
  | c :: cs => uhrAt (c :: cs) || hasUhr cs

/-- `s.replace(" Uhr", "")`: remove every (leftmost, non-overlapping)
occurrence of `" Uhr"`. -/
def removeUhr : List Char → List Char
  | [] => []
  | ' ' :: 'U' :: 'h' :: 'r' :: rest => removeUhr rest
  | c :: cs => c :: removeUhr cs

/-- Does the string start with `" - "`? -/
def dashAt (s : List Char) : Bool :=
  match s with
  | c₁ :: c₂ :: c₃ :: _ => c₁ = ' ' && c₂ = '-' && c₃ = ' '
  | _ => false

/-- `s.split(" - ", maxsplit := 1)`: split at the first occurrence of
`" - "`; the second component is `none` when the separator is absent. -/
def splitOnceDash : List Char → List Char × Option (List Char)
  | [] => ([], none)
  | c :: cs =>
    if dashAt (c :: cs) then ([], some (cs.drop 2))
    else
      let p := splitOnceDash cs
      (c :: p.1, p.2)

/-- Split a string at every newline character, Python `s.split("\n")`
(the empty string yields one empty part). -/
def splitNl : List Char → List (List Char)
  | [] => [[]]
  | c :: cs =>
    if c = '\n' then [] :: splitNl cs
    else
      match splitNl cs with
      | [] => [[c]]
      | t :: ts => (c :: t) :: ts

/-- `strptime` with format `"%H.%M"` over the whole string:
one or two digits (hour 0–23), a period, one or two digits
(minute 0–59), end of input. -/
def parseHM (s : List Char) : Option (Nat × Nat) :=
  let hd := s.takeWhile Char.isDigit
  let r₁ := s.dropWhile Char.isDigit
  if hd.length = 0 ∨ hd.length > 2 then none
  else
    let h := digitsVal hd
    if h > 23 then none
    else
      match r₁ with
      | '.' :: r₂ =>
        let md := r₂.takeWhile Char.isDigit
        let r₃ := r₂.dropWhile Char.isDigit
        if md.length = 0 ∨ md.length > 2 ∨ r₃ ≠ [] then none
        else
          let m := digitsVal md
          if m > 59 then none else some (h, m)
      | _ => none

/-- English three-letter month abbreviations recognised by `%b`
(matched case-insensitively, as `strptime` does). -/
def monthOfAbbrev (l : List Char) : Option Nat :=
  match l.map Char.toLower with
  | ['j', 'a', 'n'] => some 1
  | ['f', 'e', 'b'] => some 2
  | ['m', 'a', 'r'] => some 3
  | ['a', 'p', 'r'] => some 4
  | ['m', 'a', 'y'] => some 5
  | ['j', 'u', 'n'] => some 6
  | ['j', 'u', 'l'] => some 7
  | ['a', 'u', 'g'] => some 8
  | ['s', 'e', 'p'] => some 9
  | ['o', 'c', 't'] => some 10
  | ['n', 'o', 'v'] => some 11
  | ['d', 'e', 'c'] => some 12
  | _ => none

def isLeap (y : Nat) : Bool :=
  y % 4 = 0 && (y % 100 ≠ 0 || y % 400 = 0)

def daysInMonth (y m : Nat) : Nat :=
  if m = 2 then (if isLeap y then 29 else 28)
  else if m = 4 ∨ m = 6 ∨ m = 9 ∨ m = 11 then 30
  else 31

/-- `strptime` with format `"%d. %b %Y"` over the whole string:
day (one or two digits, 1–31), a period, whitespace, a month
abbreviation, whitespace, a four-digit year; the day is validated
against the month (as `datetime` construction does). -/
def parseDMY (s : List Char) : Option (Nat × Nat × Nat) :=
  let dd := s.takeWhile Char.isDigit
  let r₁ := s.dropWhile Char.isDigit
  if dd.length = 0 ∨ dd.length > 2 then none
  else
    let d := digitsVal dd
    if d = 0 ∨ d > 31 then none
    else
      match r₁ with
      | '.' :: r₂ =>
        if (r₂.takeWhile isPyWs).length = 0 then none
        else
          let r₃ := r₂.dropWhile isPyWs
          match monthOfAbbrev (r₃.take 3) with
          | none => none
          | some m =>
            let r₄ := r₃.drop 3
            if (r₄.takeWhile isPyWs).length = 0 then none
            else
              let r₅ := r₄.dropWhile isPyWs
              if r₅.length = 4 ∧ r₅.all Char.isDigit then
                let y := digitsVal r₅
                if d ≤ daysInMonth y m then some (y, m, d) else none
              else none
      | _ => none

/-- Python `", ".join`. -/
def joinCommaSpace (l : List (List Char)) : List Char :=
  (List.intersperse [',', ' '] l).flatten

/-! ## Data model

One camelot table is a list of rows of cells; a dataframe is a header
row of column labels plus data rows.  The row records below mirror the
dataframe columns present at each stage of `PdfParser.parse_pdf`. -/

abbrev Table : Type := List (List PyVal)

structure Df where
  columns : List PyVal
  data : List (List PyVal)

/-- `df.empty`: a dataframe is empty when either axis has length 0. -/
def Df.isEmptyDf (df : Df) : Bool :=
  df.data.isEmpty || df.columns.isEmpty

/-- A row of the melted (long-format) dataframe. -/
structure MeltedRow where
  date : PyVal
  time_slot : PyVal
  raw_details : PyVal

/-- A row after `split_time_slot` replaced `time_slot` by
`start_time`/`end_time`. -/
structure SRow where
  date : PyVal
  raw_details : PyVal
  start_time : PyVal
  end_time : PyVal

/-- A row after `check_multievent` added the `multi_event` flag. -/
structure FRow where
  date : PyVal
  raw_details : PyVal
  start_time : PyVal
  end_time : PyVal
  multi_event : Bool

/-- One processed event record, the seven columns of
`processed_events_columns` in `process_data`. -/
structure Event where
  date : PyVal
  start_time : PyVal
  end_time : PyVal
  course : PyVal
  lecturer : PyVal
  location : PyVal
  details : PyVal

/-! ## Grid Normalizer -/

/-- The kind of exception a pandas operation raises: `ValueError` and
`IndexError` inside the `try` block of `convert_tablelist_to_dataframe`
(both caught there), and the `KeyError` that `df.sort_values(by=["date",
"start_time"])` raises in `parse_pdf` — uncaught — when the
`start_time` column was never created. -/
inductive PdError where
  | valueError
  | indexError
  | keyError

/-- The `try` block of `convert_tablelist_to_dataframe`: concatenate the
tables (dropping the first row of every table after the first), take the
first row of the result as the column header, drop the first column and
rename the new first column to `"date"`.  The column drop and rename are
by label in pandas; they are modelled positionally, assuming the later
header labels differ from the first two (true of the timetable grids). -/
def convert_body (tables : List Table) : Except PdError Df :=
  match tables with
  | [] => .error .valueError          -- pd.concat of an empty list raises ValueError
  | t :: ts =>
    match t ++ (ts.map (List.drop 1)).flatten with
    | [] => .error .indexError        -- `.iloc[0]` on an empty frame raises IndexError
    | h :: data =>
      match h with
      | _ :: _ :: hrest =>
        .ok ⟨PyVal.str "date".toList :: hrest, data.map (List.drop 1)⟩
      | _ => .error .indexError       -- `.columns[0]` with too few columns

/-- `convert_tablelist_to_dataframe`: the `try` block above with the
`except` clause returning an empty `pd.DataFrame()`. -/
def convert_tablelist_to_dataframe (tables : List Table) : Df :=
  match convert_body tables with
  | .ok df => df
  | .error _ => ⟨[], []⟩

/-- `melt_df`: unpivot every non-date column into
(`date`, `time_slot`, `raw_details`) rows, stacking the value columns in
order as pandas `melt` does. -/
def melt_df (df : Df) : List MeltedRow :=
  (df.columns.drop 1).enum.flatMap (fun p =>
    df.data.map (fun r => ⟨r.getD 0 PyVal.nan, p.2, r.getD (p.1 + 1) PyVal.nan⟩))

/-- Worker for `forward_fill_dates`: `carry` is the last non-missing
date seen so far (`PyVal.nan` initially). -/
def forward_fill_dates_go (carry : PyVal) : List MeltedRow → List MeltedRow
  | [] => []
  | r :: rs =>
    match r.date with
    | .nan => { r with date := carry } :: forward_fill_dates_go carry rs
    | d => r :: forward_fill_dates_go d rs

/-- `forward_fill_dates`: `df["date"].fillna(method="ffill")` — every
missing date is replaced by the nearest preceding non-missing date. -/
def forward_fill_dates (rows : List MeltedRow) : List MeltedRow :=
  forward_fill_dates_go PyVal.nan rows

/-- One forward-fill step: a missing value keeps the carry, a present
value replaces it. -/
def ffStep (acc v : PyVal) : PyVal :=
  match v with
  | .nan => acc
  | w => w

/-- The last non-missing value of a list, starting from `carry`. -/
def lastNonNanFrom (carry : PyVal) (l : List PyVal) : PyVal :=
  l.foldl ffStep carry

/-- The row filter `df["raw_details"].notna() & (df["raw_details"] != "")`
applied in `parse_pdf`. -/
def raw_nonempty (r : MeltedRow) : Bool :=
  match r.raw_details with
  | .nan => false
  | .str s => !s.isEmpty
  | _ => true

/-! ## Cell Cleaner -/

/-- One cell under `clean_special_chars`: replace the no-break space by
a space and the unicode hyphen by an ASCII hyphen, in strings only. -/
def cleanCell (v : PyVal) : PyVal :=
  match v with
  | .str s => .str (replaceChar '‐' '-' (replaceChar '\xa0' ' ' s))
  | w => w

/-- `clean_special_chars`: the two `applymap` substitutions over every
cell of the frame. -/
def clean_special_chars (rows : List MeltedRow) : List MeltedRow :=
  rows.map (fun r => ⟨cleanCell r.date, cleanCell r.time_slot, cleanCell r.raw_details⟩)

/-- One cell under `clean_time_slot`:
`.str.replace(" Uhr", "", regex=False)` — the `.str` accessor maps
non-string elements to NaN. -/
def cleanTimeSlotCell (v : PyVal) : PyVal :=
  match v with
  | .str s => .str (removeUhr s)
  | _ => .nan

/-- `clean_time_slot`: remove `" Uhr"` from the `time_slot` column. -/
def clean_time_slot (rows : List MeltedRow) : List MeltedRow :=
  rows.map (fun r => { r with time_slot := cleanTimeSlotCell r.time_slot })

/-- Parse one (stripped) part of a split time slot with
`pd.to_datetime(..., format="%H.%M", errors="coerce").dt.time`;
a missing part or a failed parse gives NaN. -/
def timeCell (part : Option (List Char)) : PyVal :=
  match part with
  | none => .nan
  | some s =>
    match parseHM (stripWS s) with
    | some hm => .vtime hm.1 hm.2
    | none => .nan

/-- `split_time_slot` on one row, on the success path (the expanded
frame has two columns): split `time_slot` on `" - "` (`n=1`, at most
two parts), parse each part, drop `time_slot`; a row without the
separator has `None` in the second column, a non-string element
expands to all-NaN. -/
def splitTimeSlotRow (r : MeltedRow) : SRow :=
  match r.time_slot with
  | .str s =>
    let p := splitOnceDash s
    ⟨r.date, r.raw_details, timeCell (some p.1), timeCell p.2⟩
  | _ => ⟨r.date, r.raw_details, .nan, .nan⟩

/-- Does `.str.split(" - ", n=1, expand=True)` on this column produce
two columns?  The expanded frame has as many columns as the maximum
number of parts over the whole column, so exactly when some string
element contains `" - "` (an empty or separator-free column gives
fewer). -/
def split_two_columns (rows : List MeltedRow) : Bool :=
  rows.any (fun r =>
    match r.time_slot with
    | .str s => (splitOnceDash s).2.isSome
    | _ => false)

/-- `split_time_slot` over the frame: when the expanded split has two
columns, the two-name column assignment succeeds and every row is
split (`Sum.inl`); otherwise `time_splits.columns = ["start_time_str",
"end_time_str"]` raises a ValueError, the function's `except` clause
catches it, and the frame is returned unchanged — without
`start_time`/`end_time` columns (`Sum.inr`). -/
def split_time_slot (rows : List MeltedRow) :
    Sum (List SRow) (List MeltedRow) :=
  if split_two_columns rows then .inl (rows.map splitTimeSlotRow)
  else .inr rows

/-- One cell under `convert_raw_event_data_to_list`: split the raw text
on newlines, then strip each line and replace no-break spaces.  The
`.str` accessor maps non-string elements to NaN and the subsequent
`apply` passes non-lists through. -/
def convertRawCell (v : PyVal) : PyVal :=
  match v with
  | .str s => .vlist ((splitNl s).map (fun t => PyVal.str (replaceChar '\xa0' ' ' (stripWS t))))
  | _ => .nan

/-- `convert_raw_event_data_to_list` over the frame. -/
def convert_raw_event_data_to_list (rows : List SRow) : List SRow :=
  rows.map (fun r => { r with raw_details := convertRawCell r.raw_details })

/-- The `month_mapping` dict of `format_date`, in source order. -/
def month_mapping : List (String × String) :=
  [("Jan", "Jan"), ("Feb", "Feb"), ("Mär", "Mar"), ("Apr", "Apr"),
   ("Mai", "May"), ("Jun", "Jun"), ("Jul", "Jul"), ("Aug", "Aug"),
   ("Sep", "Sep"), ("Okt", "Oct"), ("Nov", "Nov"), ("Dez", "Dec")]

/-- `df["date"].replace(month_mapping, regex=True)` on one string:
substitute each mapping pair in turn. -/
def replaceMonths (s : List Char) : List Char :=
  month_mapping.foldl (fun acc p => replaceAll p.1.toList p.2.toList acc) s

/-- `Series.replace(month_mapping, regex=True)` on one cell: strings
only, anything else passes through. -/
def replaceMonthsCell (v : PyVal) : PyVal :=
  match v with
  | .str s => .str (replaceMonths s)
  | w => w

/-- `astype(str)` on one cell: a missing value prints as `"nan"`.
Other cell types cannot occur in the date column here. -/
def astypeStr (v : PyVal) : List Char :=
  match v with
  | .str s => s
  | .nan => "nan".toList
  | _ => []

/-- One cell under `format_date`: replace German month abbreviations
(strings only), `astype(str)`, append the year, and parse with
`format="%d. %b %Y", errors="coerce"`. -/
def formatDateCell (year : Nat) (v : PyVal) : PyVal :=
  match parseDMY (astypeStr (replaceMonthsCell v) ++ ' ' :: (toString year).toList) with
  | some ymd => .vdate ymd.1 ymd.2.1 ymd.2.2
  | none => .nan

/-- `format_date` over the frame. -/
def format_date (year : Nat) (rows : List SRow) : List SRow :=
  rows.map (fun r => { r with date := formatDateCell year r.date })

/-- `validate_dates`: keep rows whose date parsed and whose year lies in
`[start_year, end_year]` (`between` is inclusive; a missing date fails
the comparison and is dropped). -/
def validate_dates (start_year end_year : Nat) (rows : List SRow) : List SRow :=
  rows.filter (fun r =>
    match r.date with
    | .vdate y _ _ => start_year ≤ y && y ≤ end_year
    | _ => false)

/-! ## Sorting (df.sort_values(by=["date", "start_time"]))

pandas uses an unstable quicksort; the tie order is unspecified, so any
sort by the same key is a faithful model.  Missing keys sort last
(`na_position="last"`). -/

/-- Lexicographic order on characters. -/
def charsLE : List Char → List Char → Bool
  | [], _ => true
  | _ :: _, [] => false
  | c :: cs, d :: ds => c < d || (c = d && charsLE cs ds)

/-- Order on one sort-key cell; `nan` (missing) sorts last.  The
heterogeneous cases cannot occur within one column. -/
def cellLE (a b : PyVal) : Bool :=
  match a, b with
  | .nan, .nan => true
  | .nan, _ => false
  | _, .nan => true
  | .vdate y₁ m₁ d₁, .vdate y₂ m₂ d₂ =>
    y₁ < y₂ || (y₁ = y₂ && (m₁ < m₂ || (m₁ = m₂ && d₁ ≤ d₂)))
  | .vtime h₁ n₁, .vtime h₂ n₂ => h₁ < h₂ || (h₁ = h₂ && n₁ ≤ n₂)
  | .str a, .str b => charsLE a b
  | _, _ => true

/-- Lexicographic (date, start_time) row order. -/
def rowLE (a b : SRow) : Bool :=
  (cellLE a.date b.date && !cellLE b.date a.date) ||
    (cellLE a.date b.date && cellLE b.date a.date && cellLE a.start_time b.start_time)

def insertLE (x : SRow) : List SRow → List SRow
  | [] => [x]
  | y :: ys => if rowLE x y then x :: y :: ys else y :: insertLE x ys

/-- `df.sort_values(by=["date", "start_time"])`, modelled as an
insertion sort on the same key. -/
def sortRows : List SRow → List SRow
  | [] => []
  | x :: xs => insertLE x (sortRows xs)

/-! ## Multi-Event Detector -/

/-- The flag computed by `check_multievent`:
`isinstance(x, list) and len(x) > 4`. -/
def multiFlag (v : PyVal) : Bool :=
  match v with
  | .vlist l => l.length > 4
  | _ => false

/-- `check_multievent` on one row. -/
def checkRow (r : SRow) : FRow :=
  ⟨r.date, r.raw_details, r.start_time, r.end_time, multiFlag r.raw_details⟩

/-- `check_multievent` over the frame. -/
def check_multievent (rows : List SRow) : List FRow :=
  rows.map checkRow

/-! ## parse_pdf -/

/-- The processing pipeline of `PdfParser.parse_pdf` after the
conversion/emptiness gate; `year` is the result of `get_year` (the
version stamp is external input), and `if year:` is false for `None`
and for `0`.  When the time-slot split failed (no label contains
`" - "`), the frame flows on without `start_time`/`end_time` columns
— the remaining column operations touch only `raw_details` and `date`
and succeed — until `df.sort_values(by=["date", "start_time"])` raises
a KeyError that nothing catches. -/
def postPipeline (year : Option Nat) (sy ey : Nat) (df : Df) :
    Except PdError (List FRow) :=
  let m := melt_df df
  let m := forward_fill_dates m
  let m := m.filter raw_nonempty
  let m := clean_special_chars m
  let m := clean_time_slot m
  match split_time_slot m with
  | .inl s =>
    let s := convert_raw_event_data_to_list s
    let y := year.getD 0
    let s := if y ≠ 0 then validate_dates sy ey (format_date y s) else s
    .ok (check_multievent (sortRows s))
  | .inr _ => .error .keyError

/-- `PdfParser.parse_pdf`, from the extracted tables on: return `None`
when no tables were extracted or when the converted dataframe is empty,
otherwise run the pipeline, whose uncaught KeyError (failed time-slot
split) propagates out of `parse_pdf`.  (Saving of CSV/JSON output is
I/O and does not change the returned frame.) -/
def parse_pdf (year : Option Nat) (sy ey : Nat) (tables : List Table) :
    Except PdError (Option (List FRow)) :=
  if tables.isEmpty then .ok none
  else
    let df := convert_tablelist_to_dataframe tables
    if df.isEmptyDf then .ok none
    else (postPipeline year sy ey df).map some

/-! ## Text-structuring oracle (openai_parser) -/

/-- Outcome of one attempt of the loop in `openai_parser`
(source name `openai_parser`): an empty completion (retried), a JSON
decode error / API error / unexpected exception (retried), or a
completion that `json.loads` parses to the given value. -/
inductive Outcome where
  | emptyResp
  | decodeErr
  | ok : PyVal → Outcome

/-- The fixed sentinel list `failure_response` of `openai_parser`. -/
def failure_response : List PyVal :=
  [PyVal.vdict
    [("course".toList, PyVal.str "!!! AiParsing Failure!!!".toList),
     ("lecturer".toList, PyVal.vlist []),
     ("location".toList, PyVal.str "".toList),
     ("details".toList, PyVal.str "".toList)]]

/-- `openai_parser` as a function of the outcome of each attempted call
(at most `max_retries = 3` entries): a dict is returned as a singleton
list, a list is returned as is, any other parsed value returns the
sentinel immediately, failures retry, and exhausting all attempts
returns the sentinel. -/
def openaiParser (attempts : List Outcome) : List PyVal :=
  match attempts with
  | [] => failure_response
  | .emptyResp :: rest => openaiParser rest
  | .decodeErr :: rest => openaiParser rest
  | .ok v :: _ =>
    match v with
    | .vdict d => [PyVal.vdict d]
    | .vlist l => l
    | _ => failure_response

/-! ## Event Reconstructor (process_data) -/

/-- Python `dict.get(k, default)` on an association list (keys of a
parsed JSON object are effectively unique). -/
def dictGet (d : List (List Char × PyVal)) (k : List Char) (dflt : PyVal) : PyVal :=
  (List.lookup k d).getD dflt

/-- The `processed_event` dict built in the multi-event branch of
`process_data` from one oracle-returned record. -/
def eventFromDict (r : FRow) (d : List (List Char × PyVal)) : Event :=
  ⟨r.date, r.start_time, r.end_time,
   dictGet d "course".toList (PyVal.str "Unknown Course".toList),
   dictGet d "lecturer".toList (PyVal.vlist [PyVal.str "Unknown Lecturer".toList]),
   dictGet d "location".toList (PyVal.str "Unknown Location".toList),
   dictGet d "details".toList (PyVal.str "".toList)⟩

/-- `", ".join(filter(None, raw_details))`: `filter(None, ...)` drops
falsy (empty) strings.  The elements are strings in the pipeline; a
non-string element would make `join` raise and cannot occur. -/
def detailsString (l : List PyVal) : List Char :=
  joinCommaSpace (l.filterMap (fun v =>
    match v with
    | .str s => if s.isEmpty then none else some s
    | _ => none))

/-- The multi-event branch of `process_data` on one row: call the
oracle on the joined details and map every returned dict record to an
`Event` carrying the row's date and times; non-dict entries are logged
and skipped. -/
def processMulti (oracle : List Char → List PyVal) (r : FRow) : List Event :=
  match r.raw_details with
  | .vlist rd =>
    (oracle (detailsString rd)).filterMap (fun ev =>
      match ev with
      | .vdict d => some (eventFromDict r d)
      | _ => none)
  | _ => []

/-- The single-event branch of `process_data` on one row: positional
mapping of the lines with literal placeholders for missing positions;
a non-list `raw_details` is logged and skipped. -/
def processSingle (r : FRow) : List Event :=
  match r.raw_details with
  | .vlist rd =>
    [⟨r.date, r.start_time, r.end_time,
      rd.getD 0 (PyVal.str "Unknown Course".toList),
      PyVal.vlist [rd.getD 1 (PyVal.str "Unknown Lecturer".toList)],
      rd.getD 2 (PyVal.str "Unknown Location".toList),
      rd.getD 3 (PyVal.str "".toList)⟩]
  | _ => []

/-- One iteration of the row loop of `process_data`, dispatching on the
`multi_event` flag. -/
def processRow (oracle : List Char → List PyVal) (r : FRow) : List Event :=
  if r.multi_event then processMulti oracle r else processSingle r

/-- `process_data`: process every row, collecting the events. -/
def process_data (oracle : List Char → List PyVal) (rows : List FRow) : List Event :=
  rows.flatMap (processRow oracle)

/-- The fixed column list `processed_events_columns` of `process_data`. -/
def processed_events_columns : List (List Char) :=
  ["date".toList, "start_time".toList, "end_time".toList, "course".toList,
   "lecturer".toList, "location".toList, "details".toList]

/-- One processed event as a dataframe record under
`processed_events_columns`, in column order. -/
def eventToRow (e : Event) : List (List Char × PyVal) :=
  [("date".toList, e.date), ("start_time".toList, e.start_time),
   ("end_time".toList, e.end_time), ("course".toList, e.course),
   ("lecturer".toList, e.lecturer), ("location".toList, e.location),
   ("details".toList, e.details)]

/-! ## Spec-side comparison definitions and claim predicates -/

/-- Modelled from the spec (for comparison in C6): "strip trailing
\" Uhr\" label" — remove the suffix only, unlike the source's
replace-all. -/
def stripTrailingUhrSpec (s : List Char) : List Char :=
  if " Uhr".toList.isSuffixOf s then s.take (s.length - 4) else s

/-- Modelled from the spec (for comparison in C5): the exception the
spec says the Grid Normalizer raises on an empty flattened sequence.
No such exception exists anywhere in the source. -/
inductive EmptyTableError where
  | emptyTable

/-- Modelled from the spec (for comparison in C5): a Grid Normalizer
that "fails with `EmptyTableError` if the flattened sequence is
empty". -/
def gridNormalizeSpec (tables : List Table) : Except EmptyTableError (List MeltedRow) :=
  let rows := forward_fill_dates (melt_df (convert_tablelist_to_dataframe tables))
  if rows.isEmpty then .error .emptyTable else .ok (rows.filter raw_nonempty)

/-- C9 predicate: the cell contains no no-break space and no unicode
hyphen (non-strings vacuously). -/
def cellNoSpecials (v : PyVal) : Bool :=
  match v with
  | .str s => !s.contains '\xa0' && !s.contains '‐'
  | _ => true

/-- C9 predicate on the `time_slot` cell: a string with no special
characters and no occurrence of `" Uhr"`, or a missing value. -/
def tsClean (v : PyVal) : Bool :=
  match v with
  | .str s => !s.contains '\xa0' && !s.contains '‐' && !hasUhr s
  | .nan => true
  | _ => false

/-! ## Helper lemmas -/

theorem process_data_singleton (oracle : List Char → List PyVal) (r : FRow) :
    process_data oracle [r] = processRow oracle r := by
  simp [process_data]

theorem openaiParser_all_fail (attempts : List Outcome)
    (h : ∀ a ∈ attempts, a = Outcome.emptyResp ∨ a = Outcome.decodeErr) :
    openaiParser attempts = failure_response := by
  induction attempts with
  | nil => rfl
  | cons a rest ih =>
    rcases h a (List.mem_cons_self a rest) with ha | ha <;> subst ha <;>
      exact ih (fun b hb => h b (List.mem_cons_of_mem _ hb))

theorem removeUhr_cons (c : Char) (cs : List Char) (h : uhrAt (c :: cs) = false) :
    removeUhr (c :: cs) = c :: removeUhr cs := by
  rw [removeUhr.eq_def]
  split
  · rename_i heq
    exact absurd heq (by simp)
  · rename_i rest heq
    rw [heq] at h
    simp [uhrAt] at h
  · rename_i c' cs' hne heq
    rw [List.cons.injEq] at heq
    rw [heq.1, heq.2]

theorem removeUhr_of_no_uhr (s : List Char) (h : hasUhr s = false) :
    removeUhr s = s := by
  induction s with
  | nil => rfl
  | cons c cs ih =>
    rw [hasUhr, Bool.or_eq_false_iff] at h
    rw [removeUhr_cons c cs h.1, ih h.2]

theorem removeUhr_append (a b : List Char) (h : hasUhr a = false) :
    removeUhr (a ++ " Uhr".toList ++ b) = a ++ removeUhr b := by
  show removeUhr (a ++ (' ' :: 'U' :: 'h' :: 'r' :: []) ++ b) = a ++ removeUhr b
  induction a with
  | nil =>
    simp only [List.nil_append]
    rfl
  | cons c a' ih =>
    rw [hasUhr, Bool.or_eq_false_iff] at h
    have step : removeUhr ((c :: a') ++ (' ' :: 'U' :: 'h' :: 'r' :: []) ++ b)
        = c :: removeUhr (a' ++ (' ' :: 'U' :: 'h' :: 'r' :: []) ++ b) := by
      rcases a' with _ | ⟨c₂, _ | ⟨c₃, _ | ⟨c₄, a₄⟩⟩⟩
      · exact removeUhr_cons _ _ (by simp [uhrAt])
      · exact removeUhr_cons _ _ (by simp [uhrAt])
      · exact removeUhr_cons _ _ (by simp [uhrAt])
      · exact removeUhr_cons _ _ h.1
    rw [step, ih h.2]
    rfl

theorem replaceChar_of_not_contains (c₁ c₂ : Char) (s : List Char)
    (h : s.contains c₁ = false) : replaceChar c₁ c₂ s = s := by
  induction s with
  | nil => rfl
  | cons c cs ih =>
    rw [List.contains_cons, Bool.or_eq_false_iff, beq_eq_false_iff_ne] at h
    simp only [replaceChar, List.map_cons]
    rw [if_neg (fun hc => h.1 hc.symm)]
    have := ih h.2
    simp only [replaceChar] at this
    rw [this]

theorem ffill_go_cons (carry : PyVal) (r : MeltedRow) (rs : List MeltedRow) :
    forward_fill_dates_go carry (r :: rs) =
      { r with date := ffStep carry r.date } ::
        forward_fill_dates_go (ffStep carry r.date) rs := by
  obtain ⟨rd, rts, rrd⟩ := r
  cases rd <;> rfl

theorem ffill_go_length (carry : PyVal) (rows : List MeltedRow) :
    (forward_fill_dates_go carry rows).length = rows.length := by
  induction rows generalizing carry with
  | nil => rfl
  | cons r rs ih => rw [ffill_go_cons]; simp [ih]

theorem ffill_go_spec (rows : List MeltedRow) (carry : PyVal) (i : Nat)
    (h : i < rows.length) :
    ((forward_fill_dates_go carry rows).getD i ⟨.nan, .nan, .nan⟩).date
      = lastNonNanFrom carry ((rows.take (i + 1)).map MeltedRow.date) ∧
    ((rows.getD i ⟨.nan, .nan, .nan⟩).date ≠ PyVal.nan →
      ((forward_fill_dates_go carry rows).getD i ⟨.nan, .nan, .nan⟩).date
        = (rows.getD i ⟨.nan, .nan, .nan⟩).date) ∧
    ((forward_fill_dates_go carry rows).getD i ⟨.nan, .nan, .nan⟩).time_slot
      = (rows.getD i ⟨.nan, .nan, .nan⟩).time_slot ∧
    ((forward_fill_dates_go carry rows).getD i ⟨.nan, .nan, .nan⟩).raw_details
      = (rows.getD i ⟨.nan, .nan, .nan⟩).raw_details := by
  induction rows generalizing carry i with
  | nil => exact absurd h (by simp)
  | cons r rs ih =>
    rw [ffill_go_cons]
    cases i with
    | zero =>
      refine ⟨?_, fun hne => ?_, rfl, rfl⟩
      · simp [lastNonNanFrom]
      · simp only [List.getD_cons_zero]
        obtain ⟨rd, rts, rrd⟩ := r
        cases rd
        · exact absurd rfl hne
        all_goals rfl
    | succ i =>
      have hi : i < rs.length := by simpa using h
      simpa [lastNonNanFrom] using ih (ffStep carry r.date) i hi

theorem filterMap_len_pos {α β : Type} (f : α → Option β) (l : List α)
    (h : ∃ x ∈ l, (f x).isSome) : 1 ≤ (l.filterMap f).length := by
  induction l with
  | nil => rcases h with ⟨x, hx, _⟩; exact absurd hx (by simp)
  | cons a as ih =>
    rcases h with ⟨x, hx, hsome⟩
    rcases List.mem_cons.1 hx with hx | hx
    · subst hx
      rcases Option.isSome_iff_exists.1 hsome with ⟨b, hb⟩
      simp [List.filterMap_cons, hb]
    · cases hfa : f a with
      | none => simpa [List.filterMap_cons, hfa] using ih ⟨x, hx, hsome⟩
      | some b => simp [List.filterMap_cons, hfa]

/-! ## Claims -/

/-- C2: for every row classified as single-event (`multi_event = false`)
whose lines list has exactly 4 entries, the reconstructed `Event` is the
positional mapping `lines[0]`→course, `[lines[1]]`→lecturer,
`lines[2]`→location, `lines[3]`→details; every shorter lines list fills
the missing positions with `"Unknown Course"`, `["Unknown Lecturer"]`,
`"Unknown Location"` and `""`; processing is total and always yields
exactly one event. -/
theorem c2_single_event_positional (oracle : List Char → List PyVal) (r : FRow)
    (hm : r.multi_event = false) :
    (∀ a b c d, r.raw_details = PyVal.vlist [a, b, c, d] →
      process_data oracle [r] =
        [⟨r.date, r.start_time, r.end_time, a, PyVal.vlist [b], c, d⟩]) ∧
    (r.raw_details = PyVal.vlist [] →
      process_data oracle [r] =
        [⟨r.date, r.start_time, r.end_time, PyVal.str "Unknown Course".toList,
          PyVal.vlist [PyVal.str "Unknown Lecturer".toList],
          PyVal.str "Unknown Location".toList, PyVal.str "".toList⟩]) ∧
    (∀ a, r.raw_details = PyVal.vlist [a] →
      process_data oracle [r] =
        [⟨r.date, r.start_time, r.end_time, a,
          PyVal.vlist [PyVal.str "Unknown Lecturer".toList],
          PyVal.str "Unknown Location".toList, PyVal.str "".toList⟩]) ∧
    (∀ a b, r.raw_details = PyVal.vlist [a, b] →
      process_data oracle [r] =
        [⟨r.date, r.start_time, r.end_time, a, PyVal.vlist [b],
          PyVal.str "Unknown Location".toList, PyVal.str "".toList⟩]) ∧
    (∀ a b c, r.raw_details = PyVal.vlist [a, b, c] →
      process_data oracle [r] =
        [⟨r.date, r.start_time, r.end_time, a, PyVal.vlist [b], c,
          PyVal.str "".toList⟩]) ∧
    (∀ rd, r.raw_details = PyVal.vlist rd →
      (process_data oracle [r]).length = 1) := by
  rw [process_data_singleton]
  refine ⟨?_, ?_, ?_, ?_, ?_, ?_⟩ <;>
    intros <;>
    simp_all [processRow, processSingle, List.getD]

/-- Witness for C2 at the spec's own example
`["Algorithms", "Dr. X", "A101", "Lecture"]`. -/
theorem c2_single_event_positional_witness :
    process_data (fun _ => [])
      [⟨PyVal.nan, PyVal.vlist [PyVal.str "Algorithms".toList, PyVal.str "Dr. X".toList,
          PyVal.str "A101".toList, PyVal.str "Lecture".toList],
        PyVal.nan, PyVal.nan, false⟩] =
      [⟨PyVal.nan, PyVal.nan, PyVal.nan, PyVal.str "Algorithms".toList,
        PyVal.vlist [PyVal.str "Dr. X".toList], PyVal.str "A101".toList,
        PyVal.str "Lecture".toList⟩] :=
  (c2_single_event_positional (fun _ => [])
      ⟨PyVal.nan, PyVal.vlist [PyVal.str "Algorithms".toList, PyVal.str "Dr. X".toList,
          PyVal.str "A101".toList, PyVal.str "Lecture".toList],
        PyVal.nan, PyVal.nan, false⟩ rfl).1
    (PyVal.str "Algorithms".toList) (PyVal.str "Dr. X".toList)
    (PyVal.str "A101".toList) (PyVal.str "Lecture".toList) rfl

/-- C3: for every normalized row whose lines are present, the
`multi_event` flag computed by `check_multievent` equals
`len(lines) > 4`, and `process_data` dispatches on exactly this flag:
5 or more lines take the text-structuring-oracle path (`processMulti`),
at most 4 lines take the positional-mapping path (`processSingle`). -/
theorem c3_multievent_flag_dispatch (s : SRow) (rd : List PyVal)
    (h : s.raw_details = PyVal.vlist rd) :
    (checkRow s).multi_event = decide (rd.length > 4) ∧
    (rd.length > 4 → ∀ oracle,
      processRow oracle (checkRow s) = processMulti oracle (checkRow s)) ∧
    (rd.length ≤ 4 → ∀ oracle,
      processRow oracle (checkRow s) = processSingle (checkRow s)) := by
  have hflag : (checkRow s).multi_event = decide (rd.length > 4) := by
    simp [checkRow, multiFlag, h]
  refine ⟨hflag, fun h5 oracle => ?_, fun h4 oracle => ?_⟩
  · rw [processRow, hflag, if_pos (by simpa using h5)]
  · rw [processRow, hflag, if_neg (by simpa using Nat.not_lt.2 h4)]

/-- Witness for C3 at a 5-line row (oracle path) and a 4-line row
(positional path). -/
theorem c3_multievent_flag_dispatch_witness :
    (checkRow ⟨PyVal.nan, PyVal.vlist [PyVal.str "a".toList, PyVal.str "b".toList,
        PyVal.str "c".toList, PyVal.str "d".toList, PyVal.str "e".toList],
      PyVal.nan, PyVal.nan⟩).multi_event = decide (5 > 4) ∧
    processRow (fun _ => [])
        (checkRow ⟨PyVal.nan, PyVal.vlist [PyVal.str "a".toList, PyVal.str "b".toList,
            PyVal.str "c".toList, PyVal.str "d".toList, PyVal.str "e".toList],
          PyVal.nan, PyVal.nan⟩) =
      processMulti (fun _ => [])
        (checkRow ⟨PyVal.nan, PyVal.vlist [PyVal.str "a".toList, PyVal.str "b".toList,
            PyVal.str "c".toList, PyVal.str "d".toList, PyVal.str "e".toList],
          PyVal.nan, PyVal.nan⟩) ∧
    processRow (fun _ => [])
        (checkRow ⟨PyVal.nan, PyVal.vlist [PyVal.str "a".toList, PyVal.str "b".toList,
            PyVal.str "c".toList, PyVal.str "d".toList],
          PyVal.nan, PyVal.nan⟩) =
      processSingle
        (checkRow ⟨PyVal.nan, PyVal.vlist [PyVal.str "a".toList, PyVal.str "b".toList,
            PyVal.str "c".toList, PyVal.str "d".toList],
          PyVal.nan, PyVal.nan⟩) := by
  refine
    ⟨(c3_multievent_flag_dispatch
        ⟨PyVal.nan, PyVal.vlist [PyVal.str "a".toList, PyVal.str "b".toList,
            PyVal.str "c".toList, PyVal.str "d".toList, PyVal.str "e".toList],
          PyVal.nan, PyVal.nan⟩
        [PyVal.str "a".toList, PyVal.str "b".toList, PyVal.str "c".toList,
          PyVal.str "d".toList, PyVal.str "e".toList] rfl).1, ?_, ?_⟩
  · exact (c3_multievent_flag_dispatch
        ⟨PyVal.nan, PyVal.vlist [PyVal.str "a".toList, PyVal.str "b".toList,
            PyVal.str "c".toList, PyVal.str "d".toList, PyVal.str "e".toList],
          PyVal.nan, PyVal.nan⟩
        [PyVal.str "a".toList, PyVal.str "b".toList, PyVal.str "c".toList,
          PyVal.str "d".toList, PyVal.str "e".toList] rfl).2.1 (by decide) (fun _ => [])
  · exact (c3_multievent_flag_dispatch
        ⟨PyVal.nan, PyVal.vlist [PyVal.str "a".toList, PyVal.str "b".toList,
            PyVal.str "c".toList, PyVal.str "d".toList],
          PyVal.nan, PyVal.nan⟩
        [PyVal.str "a".toList, PyVal.str "b".toList, PyVal.str "c".toList,
          PyVal.str "d".toList] rfl).2.2 (by decide) (fun _ => [])

/-- C1: for a multi-event slot whose oracle call fails on all of its at
most 3 attempts, `openai_parser` returns the fixed sentinel record and
`process_data` emits exactly one `Event` for that slot with course
`"!!! AiParsing Failure!!!"`, empty lecturer sequence, and empty
location and details. -/
theorem c1_multi_event_failure_sentinel (attempts : List Outcome) (r : FRow)
    (rd : List PyVal) (_hlen : attempts.length ≤ 3)
    (hfail : ∀ a ∈ attempts, a = Outcome.emptyResp ∨ a = Outcome.decodeErr)
    (hm : r.multi_event = true) (hrd : r.raw_details = PyVal.vlist rd) :
    openaiParser attempts = failure_response ∧
    process_data (fun _ => openaiParser attempts) [r] =
      [⟨r.date, r.start_time, r.end_time,
        PyVal.str "!!! AiParsing Failure!!!".toList, PyVal.vlist [],
        PyVal.str "".toList, PyVal.str "".toList⟩] := by
  have hfr := openaiParser_all_fail attempts hfail
  refine ⟨hfr, ?_⟩
  rw [process_data_singleton, processRow, if_pos hm, processMulti, hrd]
  rw [hfr]
  rfl

/-- Witness for C1: three failing attempts on a concrete 5-line row. -/
theorem c1_multi_event_failure_sentinel_witness :
    openaiParser [Outcome.decodeErr, Outcome.emptyResp, Outcome.decodeErr] =
      failure_response ∧
    process_data
        (fun _ => openaiParser [Outcome.decodeErr, Outcome.emptyResp, Outcome.decodeErr])
        [⟨PyVal.vdate 2024 10 14,
          PyVal.vlist [PyVal.str "a".toList, PyVal.str "b".toList, PyVal.str "c".toList,
            PyVal.str "d".toList, PyVal.str "e".toList],
          PyVal.vtime 9 15, PyVal.vtime 10 45, true⟩] =
      [⟨PyVal.vdate 2024 10 14, PyVal.vtime 9 15, PyVal.vtime 10 45,
        PyVal.str "!!! AiParsing Failure!!!".toList, PyVal.vlist [],
        PyVal.str "".toList, PyVal.str "".toList⟩] :=
  c1_multi_event_failure_sentinel
    [Outcome.decodeErr, Outcome.emptyResp, Outcome.decodeErr]
    ⟨PyVal.vdate 2024 10 14,
      PyVal.vlist [PyVal.str "a".toList, PyVal.str "b".toList, PyVal.str "c".toList,
        PyVal.str "d".toList, PyVal.str "e".toList],
      PyVal.vtime 9 15, PyVal.vtime 10 45, true⟩
    [PyVal.str "a".toList, PyVal.str "b".toList, PyVal.str "c".toList,
      PyVal.str "d".toList, PyVal.str "e".toList]
    (by decide)
    (by intro a ha
        rcases List.mem_cons.1 ha with h | ha
        · exact Or.inr h
        rcases List.mem_cons.1 ha with h | ha
        · exact Or.inl h
        rcases List.mem_cons.1 ha with h | ha
        · exact Or.inr h
        · exact absurd ha (by simp))
    rfl rfl

/-- C10: every record produced by `process_data` has exactly the seven
fields date, start_time, end_time, course, lecturer, location, details,
in that fixed order; an oracle-returned record contributes only its four
recognised fields (two records agreeing on those keys yield equal
events, so extra fields are discarded) and every missing field is
replaced by its default. -/
theorem c10_fixed_shape :
    (∀ (oracle : List Char → List PyVal) (rows : List FRow) (e : Event),
      e ∈ process_data oracle rows →
      (eventToRow e).map Prod.fst = processed_events_columns) ∧
    (∀ (r : FRow) (d d' : List (List Char × PyVal)),
      (∀ k ∈ ["course".toList, "lecturer".toList, "location".toList,
          "details".toList], List.lookup k d = List.lookup k d') →
      eventFromDict r d = eventFromDict r d') ∧
    (∀ (r : FRow) (d : List (List Char × PyVal)),
      (List.lookup "course".toList d = none →
        (eventFromDict r d).course = PyVal.str "Unknown Course".toList) ∧
      (List.lookup "lecturer".toList d = none →
        (eventFromDict r d).lecturer =
          PyVal.vlist [PyVal.str "Unknown Lecturer".toList]) ∧
      (List.lookup "location".toList d = none →
        (eventFromDict r d).location = PyVal.str "Unknown Location".toList) ∧
      (List.lookup "details".toList d = none →
        (eventFromDict r d).details = PyVal.str "".toList)) := by
  refine ⟨fun oracle rows e _ => rfl, fun r d d' h => ?_, fun r d => ?_⟩
  · have hc := h "course".toList (by simp)
    have hl := h "lecturer".toList (by simp)
    have hlo := h "location".toList (by simp)
    have hde := h "details".toList (by simp)
    simp only [eventFromDict, dictGet, hc, hl, hlo, hde]
  · refine ⟨fun h => ?_, fun h => ?_, fun h => ?_, fun h => ?_⟩ <;>
      · simp only [eventFromDict, dictGet]
        rw [h]
        rfl

/-- Witness for C10: a concrete single-path event has the seven columns
in order; a record with an extra `"extra"` field maps to the same event
as the record without it; a record missing `"lecturer"` gets the
default. -/
theorem c10_fixed_shape_witness :
    (eventToRow ⟨PyVal.nan, PyVal.nan, PyVal.nan, PyVal.str "X".toList,
        PyVal.vlist [PyVal.str "Unknown Lecturer".toList],
        PyVal.str "Unknown Location".toList, PyVal.str "".toList⟩).map Prod.fst =
      processed_events_columns ∧
    eventFromDict ⟨PyVal.nan, PyVal.nan, PyVal.nan, PyVal.nan, true⟩
        [("course".toList, PyVal.str "A".toList), ("extra".toList, PyVal.vint 1)] =
      eventFromDict ⟨PyVal.nan, PyVal.nan, PyVal.nan, PyVal.nan, true⟩
        [("course".toList, PyVal.str "A".toList)] ∧
    (eventFromDict ⟨PyVal.nan, PyVal.nan, PyVal.nan, PyVal.nan, true⟩
        [("course".toList, PyVal.str "A".toList)]).lecturer =
      PyVal.vlist [PyVal.str "Unknown Lecturer".toList] := by
  refine ⟨c10_fixed_shape.1 (fun _ => [])
      [⟨PyVal.nan, PyVal.vlist [PyVal.str "X".toList], PyVal.nan, PyVal.nan, false⟩]
      _ (List.mem_singleton.mpr rfl),
    c10_fixed_shape.2.1 _ _ _ ?_, (c10_fixed_shape.2.2 _ _).2.1 rfl⟩
  intro k hk
  rcases List.mem_cons.1 hk with h | hk
  · subst h; rfl
  rcases List.mem_cons.1 hk with h | hk
  · subst h; rfl
  rcases List.mem_cons.1 hk with h | hk
  · subst h; rfl
  rcases List.mem_cons.1 hk with h | hk
  · subst h; rfl
  · exact absurd hk (by simp)

/-- C8 counterexample: a non-empty five-line slot whose oracle call
succeeds with an empty JSON list yields zero output records, so the
pipeline does silently drop a non-empty grid cell, contrary to the
claim. -/
theorem c8_cex_empty_oracle_list :
    (check_multievent [⟨PyVal.str "14. Oct".toList,
        PyVal.vlist [PyVal.str "A".toList, PyVal.str "B".toList, PyVal.str "C".toList,
          PyVal.str "D".toList, PyVal.str "E".toList],
        PyVal.vtime 9 15, PyVal.vtime 10 45⟩]).map FRow.multi_event = [true] ∧
    openaiParser [Outcome.ok (PyVal.vlist [])] = [] ∧
    process_data (fun _ => openaiParser [Outcome.ok (PyVal.vlist [])])
      (check_multievent [⟨PyVal.str "14. Oct".toList,
        PyVal.vlist [PyVal.str "A".toList, PyVal.str "B".toList, PyVal.str "C".toList,
          PyVal.str "D".toList, PyVal.str "E".toList],
        PyVal.vtime 9 15, PyVal.vtime 10 45⟩]) = [] :=
  ⟨rfl, rfl, rfl⟩

/-- C8 amended: every row whose lines are present yields at least one
output record — exactly one on the positional path, and at least one on
the oracle path provided the oracle's parsed reply contains at least
one record object (a reply that is a list with no record objects yields
zero events for that slot). -/
theorem c8_amended_emits (resp : List PyVal) (s : SRow) (rd : List PyVal)
    (h : s.raw_details = PyVal.vlist rd) :
    (rd.length ≤ 4 → ∀ oracle : List Char → List PyVal,
      (process_data oracle (check_multievent [s])).length = 1) ∧
    ((∃ d, PyVal.vdict d ∈ resp) →
      1 ≤ (process_data (fun _ => resp) (check_multievent [s])).length) := by
  have hrows : check_multievent [s] = [checkRow s] := rfl
  have hflag : (checkRow s).multi_event = decide (rd.length > 4) := by
    simp [checkRow, multiFlag, h]
  have hsingle : ∀ oracle : List Char → List PyVal, rd.length ≤ 4 →
      process_data oracle (check_multievent [s]) = [processSingle (checkRow s)].flatten := by
    intro oracle h4
    rw [hrows, process_data_singleton, processRow,
      if_neg (by rw [hflag]; simpa using Nat.not_lt.2 h4)]
    simp
  constructor
  · intro h4 oracle
    rw [hsingle oracle h4]
    simp [processSingle, checkRow, h]
  · rintro ⟨d, hd⟩
    by_cases h4 : rd.length > 4
    · rw [hrows, process_data_singleton, processRow,
        if_pos (by rw [hflag]; simpa using h4), processMulti]
      have hraw : (checkRow s).raw_details = PyVal.vlist rd := by
        simp [checkRow, h]
      rw [hraw]
      exact filterMap_len_pos _ _ ⟨PyVal.vdict d, hd, rfl⟩
    · rw [hsingle _ (Nat.not_lt.1 h4)]
      simp [processSingle, checkRow, h]

/-- Witness for C8 amended: a one-line slot yields exactly one event; a
five-line slot with a reply containing one record yields at least one
event. -/
theorem c8_amended_emits_witness :
    (process_data (fun _ => []) (check_multievent
      [⟨PyVal.nan, PyVal.vlist [PyVal.str "q".toList], PyVal.nan, PyVal.nan⟩])).length = 1 ∧
    1 ≤ (process_data (fun _ => [PyVal.vdict []]) (check_multievent
      [⟨PyVal.nan, PyVal.vlist [PyVal.str "a".toList, PyVal.str "b".toList,
          PyVal.str "c".toList, PyVal.str "d".toList, PyVal.str "e".toList],
        PyVal.nan, PyVal.nan⟩])).length :=
  ⟨(c8_amended_emits []
      ⟨PyVal.nan, PyVal.vlist [PyVal.str "q".toList], PyVal.nan, PyVal.nan⟩
      [PyVal.str "q".toList] rfl).1 (by decide) (fun _ => []),
   (c8_amended_emits [PyVal.vdict []]
      ⟨PyVal.nan, PyVal.vlist [PyVal.str "a".toList, PyVal.str "b".toList,
          PyVal.str "c".toList, PyVal.str "d".toList, PyVal.str "e".toList],
        PyVal.nan, PyVal.nan⟩
      [PyVal.str "a".toList, PyVal.str "b".toList, PyVal.str "c".toList,
        PyVal.str "d".toList, PyVal.str "e".toList] rfl).2
     ⟨[], List.mem_singleton.mpr rfl⟩⟩

/-- C4: evaluation of the code at the claim's failing input.  A blank
grid cell reaches `forward_fill_dates` as the empty string (camelot
cells are strings, and nothing converts `""` to NaN beforehand), and
`fillna(method="ffill")` fills only missing values: the blank-date row
immediately following a row dated `"14. Okt"` keeps the empty string
instead of inheriting the date, its date parse then coerces to a
missing value, and `validate_dates` drops the row from the output.
Only a genuinely missing (NaN) date — which does not occur for blank
cells — would be filled, as the last conjunct shows.  This contradicts
the claim and the function's own stated purpose. -/
theorem c4_blank_string_not_filled :
    forward_fill_dates
        [⟨PyVal.str "14. Okt".toList, PyVal.str "s1".toList, PyVal.str "X".toList⟩,
         ⟨PyVal.str "".toList, PyVal.str "s2".toList, PyVal.str "Y".toList⟩] =
      [⟨PyVal.str "14. Okt".toList, PyVal.str "s1".toList, PyVal.str "X".toList⟩,
       ⟨PyVal.str "".toList, PyVal.str "s2".toList, PyVal.str "Y".toList⟩] ∧
    formatDateCell 2024 (PyVal.str "".toList) = PyVal.nan ∧
    (∀ a b c : PyVal,
      validate_dates 2024 2025
        (format_date 2024 [⟨PyVal.str "".toList, a, b, c⟩]) = []) ∧
    forward_fill_dates
        [⟨PyVal.str "14. Okt".toList, PyVal.str "s1".toList, PyVal.str "X".toList⟩,
         ⟨PyVal.nan, PyVal.str "s2".toList, PyVal.str "Y".toList⟩] =
      [⟨PyVal.str "14. Okt".toList, PyVal.str "s1".toList, PyVal.str "X".toList⟩,
       ⟨PyVal.str "14. Okt".toList, PyVal.str "s2".toList, PyVal.str "Y".toList⟩] :=
  ⟨rfl, rfl, fun _ _ _ => rfl, rfl⟩

/-- C7: date parsing replaces the German month abbreviations
(`Mär`→`Mar`, `Mai`→`May`, `Okt`→`Oct`, `Dez`→`Dec`, others pass
through) and then parses `D. MMM YYYY` with the supplied year, so
`"14. Okt"` with year 2024 yields 2024-10-14; a cell whose parse fails
(e.g. `"XX. Foo"`) yields a missing date, the result is always either a
date or a missing value (never an error), and `validate_dates` keeps
only rows whose date parsed to a year inside the window — so every
failed row is excluded from the output. -/
theorem c7_date_parsing :
    replaceMonths "Mär".toList = "Mar".toList ∧
    replaceMonths "Mai".toList = "May".toList ∧
    replaceMonths "Okt".toList = "Oct".toList ∧
    replaceMonths "Dez".toList = "Dec".toList ∧
    replaceMonths "Jan".toList = "Jan".toList ∧
    formatDateCell 2024 (PyVal.str "14. Okt".toList) = PyVal.vdate 2024 10 14 ∧
    formatDateCell 2024 (PyVal.str "XX. Foo".toList) = PyVal.nan ∧
    (∀ (year : Nat) (v : PyVal),
      formatDateCell year v = PyVal.nan ∨
      ∃ y m d, formatDateCell year v = PyVal.vdate y m d) ∧
    (∀ (sy ey : Nat) (rows : List SRow) (r : SRow),
      r ∈ validate_dates sy ey rows →
      ∃ y m d, r.date = PyVal.vdate y m d ∧ sy ≤ y ∧ y ≤ ey) := by
  refine ⟨by decide, by decide, by decide, by decide, by decide, rfl, rfl,
    fun year v => ?_, fun sy ey rows r hr => ?_⟩
  · cases hx : parseDMY (astypeStr (replaceMonthsCell v) ++ ' ' :: (toString year).toList) with
    | none => exact Or.inl (by unfold formatDateCell; rw [hx])
    | some ymd =>
      exact Or.inr ⟨ymd.1, ymd.2.1, ymd.2.2, by unfold formatDateCell; rw [hx]⟩
  · rcases List.mem_filter.1 hr with ⟨-, hpred⟩
    cases hd : r.date <;> rw [hd] at hpred
    case vdate y m d =>
      rw [Bool.and_eq_true, decide_eq_true_iff, decide_eq_true_iff] at hpred
      exact ⟨y, m, d, rfl, hpred.1, hpred.2⟩
    all_goals simp at hpred

/-- C6 counterexample: at the label `"09.15 Uhr - 10.45"` — whose
`" Uhr"` occurrence is not trailing — the code removes the occurrence
everywhere and parses `start_time = 09:15` (the label contains `" - "`,
so the expanded split has two columns and succeeds), while the claimed
strip-only-a-trailing-`" Uhr"` behaviour leaves `"09.15 Uhr"` as the
first part, whose `HH.MM` parse fails (null start time). -/
theorem c6_cex_nontrailing_uhr :
    split_time_slot (clean_time_slot
        [⟨PyVal.nan, PyVal.str "09.15 Uhr - 10.45".toList, PyVal.nan⟩]) =
      .inl [⟨PyVal.nan, PyVal.nan, PyVal.vtime 9 15, PyVal.vtime 10 45⟩] ∧
    stripTrailingUhrSpec "09.15 Uhr - 10.45".toList = "09.15 Uhr - 10.45".toList ∧
    parseHM (stripWS (splitOnceDash
      (stripTrailingUhrSpec "09.15 Uhr - 10.45".toList)).1) = none :=
  ⟨rfl, by decide, by decide⟩

/-- C6 amended: time-slot parsing removes every occurrence of `" Uhr"`
(a trailing one included: prepending clean text to `" Uhr"` drops it),
splits on the first `" - "` into at most two parts and parses each with
`HH.MM` — provided the expanded split of the whole column has two
columns, i.e. some label contains `" - "`.  Then `"09.15 - 10.45 Uhr"`
gives 09:15/10:45, and `"09.15 Uhr"` alongside such a ranged label
gives 09:15 with a null end time; in a frame where no label contains
`" - "` the two-name column assignment fails and the frame is returned
without start/end times. -/
theorem c6_amended_remove_every_uhr (a b : List Char) (h : hasUhr a = false) :
    removeUhr (a ++ " Uhr".toList ++ b) = a ++ removeUhr b ∧
    (∀ d rd : PyVal,
      split_time_slot (clean_time_slot
          [⟨d, PyVal.str "09.15 - 10.45 Uhr".toList, rd⟩]) =
        .inl [⟨d, rd, PyVal.vtime 9 15, PyVal.vtime 10 45⟩]) ∧
    (∀ d₁ rd₁ d₂ rd₂ : PyVal,
      split_time_slot (clean_time_slot
          [⟨d₁, PyVal.str "09.15 - 10.45 Uhr".toList, rd₁⟩,
           ⟨d₂, PyVal.str "09.15 Uhr".toList, rd₂⟩]) =
        .inl [⟨d₁, rd₁, PyVal.vtime 9 15, PyVal.vtime 10 45⟩,
              ⟨d₂, rd₂, PyVal.vtime 9 15, PyVal.nan⟩]) ∧
    (∀ d rd : PyVal,
      split_time_slot (clean_time_slot [⟨d, PyVal.str "09.15 Uhr".toList, rd⟩]) =
        .inr [⟨d, PyVal.str "09.15".toList, rd⟩]) :=
  ⟨removeUhr_append a b h, fun _ _ => rfl, fun _ _ _ _ => rfl, fun _ _ => rfl⟩

/-- Witness for C6 amended at `a = "09.15"`, `b = ""`. -/
theorem c6_amended_remove_every_uhr_witness :
    removeUhr ("09.15".toList ++ " Uhr".toList ++ "".toList)
      = "09.15".toList ++ removeUhr "".toList ∧
    split_time_slot (clean_time_slot
        [⟨PyVal.nan, PyVal.str "09.15 - 10.45 Uhr".toList, PyVal.nan⟩]) =
      .inl [⟨PyVal.nan, PyVal.nan, PyVal.vtime 9 15, PyVal.vtime 10 45⟩] ∧
    split_time_slot (clean_time_slot
        [⟨PyVal.nan, PyVal.str "09.15 - 10.45 Uhr".toList, PyVal.nan⟩,
         ⟨PyVal.nan, PyVal.str "09.15 Uhr".toList, PyVal.nan⟩]) =
      .inl [⟨PyVal.nan, PyVal.nan, PyVal.vtime 9 15, PyVal.vtime 10 45⟩,
            ⟨PyVal.nan, PyVal.nan, PyVal.vtime 9 15, PyVal.nan⟩] ∧
    split_time_slot (clean_time_slot
        [⟨PyVal.nan, PyVal.str "09.15 Uhr".toList, PyVal.nan⟩]) =
      .inr [⟨PyVal.nan, PyVal.str "09.15".toList, PyVal.nan⟩] :=
  ⟨(c6_amended_remove_every_uhr "09.15".toList "".toList (by decide)).1,
   (c6_amended_remove_every_uhr "09.15".toList "".toList (by decide)).2.1
     PyVal.nan PyVal.nan,
   (c6_amended_remove_every_uhr "09.15".toList "".toList (by decide)).2.2.1
     PyVal.nan PyVal.nan PyVal.nan PyVal.nan,
   (c6_amended_remove_every_uhr "09.15".toList "".toList (by decide)).2.2.2
     PyVal.nan PyVal.nan⟩

theorem cleanCell_id (v : PyVal) (h : cellNoSpecials v = true) :
    cleanCell v = v := by
  cases v with
  | str s =>
    have h' : (!s.contains '\xa0' && !s.contains '‐') = true := h
    rw [Bool.and_eq_true, Bool.not_eq_true', Bool.not_eq_true'] at h'
    show PyVal.str (replaceChar '‐' '-' (replaceChar '\xa0' ' ' s)) = PyVal.str s
    rw [replaceChar_of_not_contains _ _ _ h'.1, replaceChar_of_not_contains _ _ _ h'.2]
  | nan => rfl
  | vint n => rfl
  | vlist l => rfl
  | vdict d => rfl
  | vdate y m d => rfl
  | vtime a b => rfl

/-- C9 counterexample: the slot with `time_slot = "a Uhrb"` satisfies
the claim's precondition (no no-break space, no unicode hyphen, and no
`" Uhr"` suffix) yet re-running the cleaner changes it: the interior
`" Uhr"` occurrence is removed, so the substitutions are not stable
under the precondition as stated. -/
theorem c9_cex_not_idempotent :
    ("a Uhrb".toList.contains '\xa0' = false) ∧
    ("a Uhrb".toList.contains '‐' = false) ∧
    (" Uhr".toList.isSuffixOf "a Uhrb".toList = false) ∧
    clean_time_slot (clean_special_chars
        [⟨PyVal.nan, PyVal.str "a Uhrb".toList, PyVal.nan⟩]) ≠
      [⟨PyVal.nan, PyVal.str "a Uhrb".toList, PyVal.nan⟩] := by
  refine ⟨by decide, by decide, by decide, fun hEq => ?_⟩
  have hlen := congrArg (fun l => l.map (fun r =>
    match MeltedRow.time_slot r with
    | PyVal.str s => s.length
    | _ => 0)) hEq
  exact absurd hlen (by decide)

/-- C9 amended: the Cell Cleaner is idempotent on every slot whose
string cells contain no no-break space and no unicode hyphen and whose
`time_slot` (a string or a missing value) contains no occurrence of
`" Uhr"` anywhere — not merely no trailing one: re-running the
substitutions returns the slot unchanged. -/
theorem c9_amended_idempotent (r : MeltedRow)
    (h1 : cellNoSpecials r.date = true)
    (h2 : cellNoSpecials r.raw_details = true)
    (h3 : tsClean r.time_slot = true) :
    clean_time_slot (clean_special_chars [r]) = [r] := by
  obtain ⟨d, ts, rd⟩ := r
  have hd := cleanCell_id d h1
  have hrd := cleanCell_id rd h2
  cases ts with
  | str s =>
    have h3' : (!s.contains '\xa0' && !s.contains '‐' && !hasUhr s) = true := h3
    rw [Bool.and_eq_true, Bool.and_eq_true] at h3'
    have hts : cleanCell (PyVal.str s) = PyVal.str s := by
      have : cellNoSpecials (PyVal.str s) = true := by
        show (!s.contains '\xa0' && !s.contains '‐') = true
        rw [Bool.and_eq_true]
        exact h3'.1
      exact cleanCell_id _ this
    have huhr : removeUhr s = s :=
      removeUhr_of_no_uhr s (by
        have := h3'.2
        rwa [Bool.not_eq_true'] at this)
    simp [clean_special_chars, clean_time_slot, hd, hrd, hts, cleanTimeSlotCell, huhr]
  | nan =>
    simp only [clean_special_chars, clean_time_slot, List.map_cons, List.map_nil, hd, hrd]
    rfl
  | vint n => exact absurd h3 (by simp [tsClean])
  | vlist l => exact absurd h3 (by simp [tsClean])
  | vdict dd => exact absurd h3 (by simp [tsClean])
  | vdate y m dd => exact absurd h3 (by simp [tsClean])
  | vtime a b => exact absurd h3 (by simp [tsClean])

/-- Witness for C9 amended at a concrete already-clean slot. -/
theorem c9_amended_idempotent_witness :
    clean_time_slot (clean_special_chars
        [⟨PyVal.str "14. Okt".toList, PyVal.str "08.00 - 09.30".toList,
          PyVal.str "Math".toList⟩]) =
      [⟨PyVal.str "14. Okt".toList, PyVal.str "08.00 - 09.30".toList,
        PyVal.str "Math".toList⟩] :=
  c9_amended_idempotent
    ⟨PyVal.str "14. Okt".toList, PyVal.str "08.00 - 09.30".toList,
      PyVal.str "Math".toList⟩ (by decide) (by decide) (by decide)

/-- C5 counterexample: on the empty table list the flattened sequence
is empty, yet the code raises no `EmptyTableError` — no such exception
exists in the source; the only internal exception is a caught pandas
`ValueError`, `convert_tablelist_to_dataframe` returns an empty
dataframe and `parse_pdf` returns `None`, whereas the spec-modelled
normalizer errors there. -/
theorem c5_cex_no_empty_table_error :
    convert_body ([] : List Table) = Except.error PdError.valueError ∧
    convert_tablelist_to_dataframe ([] : List Table) = ⟨[], []⟩ ∧
    parse_pdf (some 2024) 2024 2025 ([] : List Table) = Except.ok none ∧
    gridNormalizeSpec ([] : List Table) = Except.error EmptyTableError.emptyTable :=
  ⟨rfl, rfl, rfl, rfl⟩

/-- C5 amended: no `EmptyTableError` is ever raised: `parse_pdf`
returns `None` exactly when the converted dataframe is empty (in
particular on an empty table list, where the conversion's internal
pandas error is caught and an empty dataframe returned), and for every
non-empty conversion it passes the gate and returns the pipeline's
outcome — the processed frame, or the uncaught KeyError at
`sort_values` when the time-slot split step failed — never `None`. -/
theorem c5_amended_empty_gate (year : Option Nat) (sy ey : Nat) (tables : List Table) :
    (parse_pdf year sy ey tables = .ok none ↔
      (convert_tablelist_to_dataframe tables).isEmptyDf = true) ∧
    ((convert_tablelist_to_dataframe tables).isEmptyDf = false →
      parse_pdf year sy ey tables =
        (postPipeline year sy ey (convert_tablelist_to_dataframe tables)).map some) := by
  cases tables with
  | nil => exact ⟨⟨fun _ => rfl, fun _ => rfl⟩, fun h => nomatch h⟩
  | cons t ts =>
    have key : parse_pdf year sy ey (t :: ts) =
        (if (convert_tablelist_to_dataframe (t :: ts)).isEmptyDf then .ok none
         else (postPipeline year sy ey (convert_tablelist_to_dataframe (t :: ts))).map
           some) :=
      rfl
    rw [key]
    cases hE : (convert_tablelist_to_dataframe (t :: ts)).isEmptyDf with
    | true =>
      exact ⟨Iff.intro (fun _ => rfl) (fun _ => rfl), fun hf => nomatch hf⟩
    | false =>
      refine ⟨Iff.intro (fun hs => ?_) (fun ht => nomatch ht), fun _ => rfl⟩
      cases hP : postPipeline year sy ey (convert_tablelist_to_dataframe (t :: ts)) with
      | ok v => rw [hP] at hs; exact absurd hs (by simp [Except.map])
      | error e => rw [hP] at hs; exact absurd hs (by simp [Except.map])

/-- Witness for C7: totality at a missing cell and exclusion shape at a
concrete surviving row. -/
theorem c7_date_parsing_witness :
    (formatDateCell 2024 PyVal.nan = PyVal.nan ∨
      ∃ y m d, formatDateCell 2024 PyVal.nan = PyVal.vdate y m d) ∧
    (∃ y m d,
      (⟨PyVal.vdate 2024 10 14, PyVal.nan, PyVal.nan, PyVal.nan⟩ : SRow).date
        = PyVal.vdate y m d ∧ 2024 ≤ y ∧ y ≤ 2025) :=
  ⟨c7_date_parsing.2.2.2.2.2.2.2.1 2024 PyVal.nan,
   c7_date_parsing.2.2.2.2.2.2.2.2 2024 2025
     [⟨PyVal.vdate 2024 10 14, PyVal.nan, PyVal.nan, PyVal.nan⟩]
     ⟨PyVal.vdate 2024 10 14, PyVal.nan, PyVal.nan, PyVal.nan⟩
     (List.mem_singleton.mpr rfl)⟩

end HT
